import Mathlib

/-!
Shallow embedding of src/native/src/base/logging.rs (the Magisk base logging
module) and proofs about its specified behavior.

Modelling conventions:
- Machine integers: the Rust flag word is a u32; it is modelled as a Nat
  together with explicit 32-bit masking where the Rust code uses bitwise
  complement (!flag over u32 becomes XOR with 2^32 - 1).  Theorems that need
  the u32 range carry an explicit flags < 2^32 hypothesis.
- Messages are byte sequences, modelled as List Nat.
- The global LOGGER is modelled by explicit state passing: configuration
  functions take and return a Logger, dispatch functions take the Logger
  snapshot read at call time.
- Side effects of a dispatch call are reified in a DispatchResult: the list
  of sink invocations made (in order), and whether exit(code) was reached
  after them.  The actual I/O performed is the concatenation of the sink
  outputs for each recorded invocation (dispatchIO below).
-/

namespace Logging

/-- Severity levels.  The Rust LogLevel enum lives in the ffi module (outside
this slice); per the spec it has the four ranked variants Error, Warn, Info,
Debug and possibly further variants that do not participate in suppression.
Modelled from the spec: the extra variants are collapsed into one
representative, Other. -/
inductive LogLevel where
  | ErrorL
  | Warn
  | Info
  | Debug
  | Other
  deriving DecidableEq

/-- Bit constants of the LogFlag module in logging.rs. -/
def DisableError : Nat := 1
/-- 1 <<< 1 in the source. -/
def DisableWarn : Nat := 2
/-- 1 <<< 2 in the source. -/
def DisableInfo : Nat := 4
/-- 1 <<< 3 in the source. -/
def DisableDebug : Nat := 8
/-- 1 <<< 4 in the source. -/
def ExitOnError : Nat := 16

/-- 32-bit all-ones mask; XOR with it is the u32 bitwise complement. -/
def mask32 : Nat := 2 ^ 32 - 1

/-- Observable I/O a sink can perform (the cmdline sink writes to the
standard streams; write failures are swallowed by .ok() in the source, so an
event records the attempt). -/
inductive IOEvent where
  | WriteStdout (msg : List Nat)
  | WriteStderr (msg : List Nat)
  deriving DecidableEq

/-- The Logger struct: a sink function pointer and the u32 flag word. -/
structure Logger where
  write : LogLevel → List Nat → List IOEvent
  flags : Nat

/-- LogLevel::as_disable_flag from logging.rs: the suppression bit of a
level; levels outside the four named ones map to 0 (the wildcard arm). -/
def LogLevel.as_disable_flag : LogLevel → Nat
  | .ErrorL => DisableError
  | .Warn => DisableWarn
  | .Info => DisableInfo
  | .Debug => DisableDebug
  | .Other => 0

/-- exit_on_error from logging.rs: sets or clears the ExitOnError bit of the
global flags (state-passing form). -/
def exit_on_error (b : Bool) (st : Logger) : Logger :=
  if b then { st with flags := st.flags ||| ExitOnError }
  else { st with flags := st.flags &&& (mask32 ^^^ ExitOnError) }

/-- set_log_level_state from logging.rs: clears (enabled) or sets (disabled)
the suppression bit of the given level. -/
def set_log_level_state (level : LogLevel) (enabled : Bool) (st : Logger) : Logger :=
  if enabled then { st with flags := st.flags &&& (mask32 ^^^ level.as_disable_flag) }
  else { st with flags := st.flags ||| level.as_disable_flag }

/-- The reified effects of one dispatch call: the sink invocations performed,
in order, and the exit code if process termination was reached afterwards.
An Exit recorded here happens after all listed sink calls, matching the
source order (write, then exit). -/
structure DispatchResult where
  sinkCalls : List (LogLevel × List Nat)
  exited : Option Nat
  deriving DecidableEq

/-- log_with_rs from logging.rs: raw-bytes dispatch.  Snapshots the logger,
returns early if the level's suppression bit is set, otherwise invokes the
sink once and then exits with status 1 when the level is Error and the
ExitOnError bit is set. -/
def log_with_rs (logger : Logger) (level : LogLevel) (msg : List Nat) : DispatchResult :=
  if logger.flags &&& level.as_disable_flag ≠ 0 then ⟨[], none⟩
  else
    ⟨[(level, msg)],
      if level = LogLevel.ErrorL ∧ logger.flags &&& ExitOnError ≠ 0 then some 1 else none⟩

/-- fmt_to_buf from the base crate (outside this slice).  Modelled from the
spec: renders the arguments into a fixed-capacity buffer, silently truncating
at the byte boundary when the rendering exceeds the capacity; returns the
bytes written.  Arguments are modelled by their fully rendered byte list. -/
def fmt_to_buf (cap : Nat) (args : List Nat) : List Nat :=
  args.take cap

/-- log_impl from logging.rs: formatted dispatch.  Same shape as log_with_rs
but the message is rendered through fmt_to_buf into a 4096-byte stack
buffer. -/
def log_impl (logger : Logger) (level : LogLevel) (args : List Nat) : DispatchResult :=
  if logger.flags &&& level.as_disable_flag ≠ 0 then ⟨[], none⟩
  else
    ⟨[(level, fmt_to_buf 4096 args)],
      if level = LogLevel.ErrorL ∧ logger.flags &&& ExitOnError ≠ 0 then some 1 else none⟩

/-- The I/O actually performed by a dispatch call under a given logger: each
recorded sink invocation runs the sink. -/
def dispatchIO (logger : Logger) (r : DispatchResult) : List IOEvent :=
  r.sinkCalls.flatMap (fun c => logger.write c.1 c.2)

/-- cmdline_write, the sink installed by cmdline_logging: Info goes to
stdout, everything else to stderr; write failures are ignored (.ok()). -/
def cmdline_write (level : LogLevel) (msg : List Nat) : List IOEvent :=
  if level = LogLevel.Info then [IOEvent.WriteStdout msg] else [IOEvent.WriteStderr msg]

/-- cmdline_logging from logging.rs: the Logger value it installs into the
global slot. -/
def cmdline_logging : Logger :=
  { write := cmdline_write, flags := ExitOnError }

/-- format_args_nl! rendering: the rendered template followed by a newline
byte, as produced by the nl variant of the formatting macro used by every
logging macro in this module. -/
def format_args_nl (rendered : List Nat) : List Nat :=
  rendered ++ [10]

/-- The error! macro: formatted dispatch at Error level with a trailing
newline. -/
def log_error (logger : Logger) (rendered : List Nat) : DispatchResult :=
  log_impl logger LogLevel.ErrorL (format_args_nl rendered)

/-- The warn! macro. -/
def log_warn (logger : Logger) (rendered : List Nat) : DispatchResult :=
  log_impl logger LogLevel.Warn (format_args_nl rendered)

/-- The info! macro. -/
def log_info (logger : Logger) (rendered : List Nat) : DispatchResult :=
  log_impl logger LogLevel.Info (format_args_nl rendered)

/-- Result of the debug! macro expansion: the dispatch effects, plus whether
the expansion evaluated its argument expressions at all (the
not-debug_assertions expansion is an empty block that discards the argument
tokens unevaluated). -/
structure DebugResult where
  result : DispatchResult
  argsEvaluated : Bool
  deriving DecidableEq

/-- The debug! macro, parameterised by the build configuration
(debug_assertions).  With debug_assertions it is formatted dispatch at Debug
level; without, it expands to an empty block: no dispatch, arguments never
evaluated. -/
def log_debug (debug_assertions : Bool) (logger : Logger) (rendered : List Nat) : DebugResult :=
  if debug_assertions then ⟨log_impl logger LogLevel.Debug (format_args_nl rendered), true⟩
  else ⟨⟨[], none⟩, false⟩

/-- Byte rendering of the string literal " failed with " used by perror!. -/
def failedWithBytes : List Nat :=
  [32, 102, 97, 105, 108, 101, 100, 32, 119, 105, 116, 104, 32]

/-- Byte rendering of the ": " separator used by perror!. -/
def colonSpaceBytes : List Nat :=
  [58, 32]

/-- The perror! macro: Error-level formatted dispatch of the rendered
template followed by the fixed failed-with suffix holding errno and its
description (both supplied by accessors outside this slice, modelled as the
byte lists they render to), plus the trailing newline. -/
def log_perror (logger : Logger) (rendered errnoStr errDesc : List Nat) : DispatchResult :=
  log_impl logger LogLevel.ErrorL
    (format_args_nl (rendered ++ failedWithBytes ++ errnoStr ++ colonSpaceBytes ++ errDesc))

/-- ResultExt::log from logging.rs, over Result<T, E> with E: Display.  The
error value is modelled by the byte list its alternate Display rendering
produces (the display argument).  On Err it runs the error! macro on that
rendering and returns the original result; on Ok it does nothing. -/
def resultLog (display : ε → List Nat) (logger : Logger) (r : Except ε α) :
    DispatchResult × Except ε α :=
  match r with
  | .ok v => (⟨[], none⟩, .ok v)
  | .error e => (log_error logger (display e), .error e)

/-- Sequential raw-bytes dispatch of a list of messages under an unchanged
logger (no configuration call between them mutates the state). -/
def log_all (logger : Logger) (level : LogLevel) (msgs : List (List Nat)) : List DispatchResult :=
  msgs.map (log_with_rs logger level)

/-- A no-op sink, the default of the global LOGGER. -/
def noopSink : LogLevel → List Nat → List IOEvent := fun _ _ => []

/-! ## Helper lemmas -/

lemma as_disable_flag_lt (level : LogLevel) : level.as_disable_flag < 2 ^ 32 := by
  cases level <;>
    simp [LogLevel.as_disable_flag, DisableError, DisableWarn, DisableInfo, DisableDebug]

lemma testBit_of_lt32 {f : Nat} (hf : f < 2 ^ 32) {i : Nat} (hi : 32 ≤ i) :
    f.testBit i = false :=
  Nat.testBit_lt_two_pow (lt_of_lt_of_le hf (Nat.pow_le_pow_right (by norm_num) hi))

lemma and_mask32_eq {f : Nat} (hf : f < 2 ^ 32) : f &&& mask32 = f := by
  apply Nat.eq_of_testBit_eq
  intro i
  rw [Nat.testBit_and, mask32, Nat.testBit_two_pow_sub_one]
  by_cases hi : i < 32
  · simp [hi]
  · simp [hi, testBit_of_lt32 hf (le_of_not_lt hi)]

lemma or_and_notc_or {f b : Nat} (hf : f < 2 ^ 32) (hb : b < 2 ^ 32) :
    ((f ||| b) &&& (mask32 ^^^ b)) ||| b = f ||| b := by
  apply Nat.eq_of_testBit_eq
  intro i
  simp only [Nat.testBit_or, Nat.testBit_and, Nat.testBit_xor, mask32,
    Nat.testBit_two_pow_sub_one]
  by_cases hi : i < 32
  · rw [decide_eq_true hi]
    cases f.testBit i <;> cases b.testBit i <;> rfl
  · rw [testBit_of_lt32 hf (le_of_not_lt hi), testBit_of_lt32 hb (le_of_not_lt hi)]
    rfl

/-! ## Claims -/

/-- Claim C1: for every severity level and message, if the level's suppression
bit is set in the flags at call time, both dispatch entry points (raw-bytes
log_with_rs and formatted log_impl) return immediately with zero sink
invocations and no other side effects; if the bit is clear, exactly one sink
invocation occurs, carrying that level and the message bytes. -/
theorem c1_suppression_dispatch (logger : Logger) (level : LogLevel) (msg args : List Nat) :
    (logger.flags &&& level.as_disable_flag ≠ 0 →
        log_with_rs logger level msg = ⟨[], none⟩
        ∧ log_impl logger level args = ⟨[], none⟩
        ∧ dispatchIO logger (log_with_rs logger level msg) = []
        ∧ dispatchIO logger (log_impl logger level args) = [])
    ∧ (logger.flags &&& level.as_disable_flag = 0 →
        (log_with_rs logger level msg).sinkCalls = [(level, msg)]
        ∧ (log_impl logger level args).sinkCalls = [(level, fmt_to_buf 4096 args)]) := by
  constructor
  · intro h
    simp [log_with_rs, log_impl, dispatchIO, h]
  · intro h
    simp [log_with_rs, log_impl, h]

theorem c1_suppression_dispatch_witness :
    log_with_rs ⟨noopSink, 1⟩ LogLevel.ErrorL [65] = ⟨[], none⟩ :=
  ((c1_suppression_dispatch ⟨noopSink, 1⟩ LogLevel.ErrorL [65] [66]).1 (by decide)).1

/-- Claim C2 counterexample: with both the Error suppression bit and the
ExitOnError bit set (flags = 17), dispatching an Error-level message does not
terminate the process (the suppression early-return wins), although the level
is Error and the exit-on-error flag is set at call time — refuting the claim
that dispatch terminates if and only if level is Error and exit-on-error is
set. -/
theorem c2_exit_counterexample :
    ((⟨noopSink, 17⟩ : Logger).flags &&& ExitOnError ≠ 0)
    ∧ (log_with_rs ⟨noopSink, 17⟩ LogLevel.ErrorL [65]).exited = none
    ∧ (log_impl ⟨noopSink, 17⟩ LogLevel.ErrorL [65]).exited = none := by
  decide

/-- Claim C2, amended: dispatch terminates the process iff the level is Error,
the exit-on-error bit is set, and the Error suppression bit is clear (a
suppressed message returns before the exit check); when it terminates the
status is 1 (non-zero) and the sink was invoked exactly once before the exit;
with exit-on-error clear, dispatching any number of Error messages never
terminates. -/
theorem c2_exit_policy (logger : Logger) (level : LogLevel) (msg args : List Nat) :
    ((log_with_rs logger level msg).exited ≠ none ↔
        level = LogLevel.ErrorL ∧ logger.flags &&& ExitOnError ≠ 0
          ∧ logger.flags &&& level.as_disable_flag = 0)
    ∧ ((log_impl logger level args).exited ≠ none ↔
        level = LogLevel.ErrorL ∧ logger.flags &&& ExitOnError ≠ 0
          ∧ logger.flags &&& level.as_disable_flag = 0)
    ∧ (∀ c, (log_with_rs logger level msg).exited = some c →
        c ≠ 0 ∧ (log_with_rs logger level msg).sinkCalls = [(level, msg)])
    ∧ (∀ c, (log_impl logger level args).exited = some c →
        c ≠ 0 ∧ (log_impl logger level args).sinkCalls = [(level, fmt_to_buf 4096 args)])
    ∧ (logger.flags &&& ExitOnError = 0 →
        ∀ msgs, ∀ r ∈ log_all logger LogLevel.ErrorL msgs, r.exited = none) := by
  have hmain : ∀ sc : List (LogLevel × List Nat),
      ((if logger.flags &&& level.as_disable_flag ≠ 0 then (⟨[], none⟩ : DispatchResult)
        else ⟨sc, if level = LogLevel.ErrorL ∧ logger.flags &&& ExitOnError ≠ 0
                  then some 1 else none⟩).exited ≠ none ↔
        level = LogLevel.ErrorL ∧ logger.flags &&& ExitOnError ≠ 0
          ∧ logger.flags &&& level.as_disable_flag = 0) := by
    intro sc
    by_cases hs : logger.flags &&& level.as_disable_flag ≠ 0
    · simp [hs]
    · by_cases hx : level = LogLevel.ErrorL ∧ logger.flags &&& ExitOnError ≠ 0
      · obtain ⟨he, hq⟩ := hx
        subst he
        simp only [if_neg hs, if_pos (And.intro rfl hq)]
        simp [hq, not_not.mp hs]
      · simp only [if_neg hs, if_neg hx]
        simp only [ne_eq, not_true_eq_false, not_not.mp hs]
        tauto
  refine ⟨hmain [(level, msg)], hmain [(level, fmt_to_buf 4096 args)], ?_, ?_, ?_⟩
  · intro c hc
    unfold log_with_rs at hc ⊢
    by_cases hs : logger.flags &&& level.as_disable_flag ≠ 0
    · simp [hs] at hc
    · by_cases hx : level = LogLevel.ErrorL ∧ logger.flags &&& ExitOnError ≠ 0
      · simp only [if_neg hs, if_pos hx] at hc ⊢
        simp at hc
        simp [← hc]
      · simp [hs, hx] at hc
  · intro c hc
    unfold log_impl at hc ⊢
    by_cases hs : logger.flags &&& level.as_disable_flag ≠ 0
    · simp [hs] at hc
    · by_cases hx : level = LogLevel.ErrorL ∧ logger.flags &&& ExitOnError ≠ 0
      · simp only [if_neg hs, if_pos hx] at hc ⊢
        simp at hc
        simp [← hc]
      · simp [hs, hx] at hc
  · intro hoff msgs r hr
    unfold log_all at hr
    rcases List.mem_map.mp hr with ⟨m, _, rfl⟩
    unfold log_with_rs
    by_cases hs : logger.flags &&& LogLevel.as_disable_flag LogLevel.ErrorL ≠ 0
    · simp [hs]
    · simp [hs, hoff]

theorem c2_exit_policy_witness :
    (log_with_rs ⟨noopSink, 16⟩ LogLevel.ErrorL [65]).exited ≠ none :=
  (c2_exit_policy ⟨noopSink, 16⟩ LogLevel.ErrorL [65] [66]).1.mpr
    ⟨rfl, by decide, by decide⟩

/-- Claim C5: cmdline_logging installs a logger whose sink routes Info-level
bytes to standard output and every other level's bytes to standard error
(write failures being swallowed by the sink itself), with the exit-on-error
bit set and all four suppression bits clear. -/
theorem c5_cmdline_logging (msg : List Nat) :
    (cmdline_logging.write = cmdline_write
      ∧ cmdline_logging.flags &&& ExitOnError ≠ 0
      ∧ cmdline_logging.flags &&& DisableError = 0
      ∧ cmdline_logging.flags &&& DisableWarn = 0
      ∧ cmdline_logging.flags &&& DisableInfo = 0
      ∧ cmdline_logging.flags &&& DisableDebug = 0
      ∧ cmdline_write LogLevel.Info msg = [IOEvent.WriteStdout msg])
    ∧ (∀ level, level ≠ LogLevel.Info → cmdline_write level msg = [IOEvent.WriteStderr msg]) := by
  refine ⟨⟨rfl, by decide, by decide, by decide, by decide, by decide, by simp [cmdline_write]⟩, ?_⟩
  intro level h
  simp [cmdline_write, h]

theorem c5_cmdline_logging_witness :
    cmdline_write LogLevel.ErrorL [65] = [IOEvent.WriteStderr [65]] :=
  (c5_cmdline_logging [65]).2 LogLevel.ErrorL (by decide)

/-- Claim C6: for a severity level outside Error, Warn, Info, Debug (the Other
variant), set_log_level_state leaves the logger unchanged for either value of
enabled, and dispatch of such a level is never suppressed: both entry points
perform exactly one sink invocation whatever the flags are. -/
theorem c6_other_levels (st : Logger) (enabled : Bool) (msg args : List Nat)
    (hf : st.flags < 2 ^ 32) :
    set_log_level_state LogLevel.Other enabled st = st
    ∧ (log_with_rs st LogLevel.Other msg).sinkCalls = [(LogLevel.Other, msg)]
    ∧ (log_impl st LogLevel.Other args).sinkCalls = [(LogLevel.Other, fmt_to_buf 4096 args)] := by
  refine ⟨?_, ?_, ?_⟩
  · cases st with
    | mk w f =>
      cases enabled with
      | false => simp [set_log_level_state, LogLevel.as_disable_flag]
      | true =>
        simp only [set_log_level_state, if_pos, LogLevel.as_disable_flag, Nat.xor_zero]
        simp [and_mask32_eq hf]
  · simp [log_with_rs, LogLevel.as_disable_flag]
  · simp [log_impl, LogLevel.as_disable_flag]

theorem c6_other_levels_witness :
    set_log_level_state LogLevel.Other true ⟨noopSink, 21⟩ = ⟨noopSink, 21⟩ :=
  (c6_other_levels ⟨noopSink, 21⟩ true [65] [66] (by norm_num)).1

/-- Claim C9: in the build configuration with debug logging compiled out, the
debug! entry point performs zero sink invocations, zero I/O, and evaluates
none of its arguments; in the debug_assertions configuration it behaves
exactly like the ordinary formatted dispatch at Debug level (log_impl of the
newline-terminated rendering). -/
theorem c9_debug_gate (logger : Logger) (rendered : List Nat) :
    (log_debug false logger rendered).result.sinkCalls = []
    ∧ (log_debug false logger rendered).result.exited = none
    ∧ (log_debug false logger rendered).argsEvaluated = false
    ∧ dispatchIO logger (log_debug false logger rendered).result = []
    ∧ (log_debug true logger rendered).result
        = log_impl logger LogLevel.Debug (format_args_nl rendered)
    ∧ (log_debug true logger rendered).argsEvaluated = true := by
  exact ⟨rfl, rfl, rfl, rfl, rfl, rfl⟩

/-- Claim C3 counterexample: applying the helper to a failure whose display
string is the single byte 101 yields one Error-level sink invocation whose
bytes are 101 followed by the newline byte 10 — not the bare display string —
refuting the claim that the delivered bytes equal the failure's display
string. -/
theorem c3_result_log_counterexample :
    (resultLog (fun e => e) ⟨noopSink, 0⟩ (Except.error [101] : Except (List Nat) Nat)).1.sinkCalls
        = [(LogLevel.ErrorL, [101, 10])]
    ∧ ([101, 10] : List Nat) ≠ [101] := by
  decide

/-- Claim C3, amended: on a success the helper returns the same success value
with zero sink invocations; on a failure, provided the Error suppression bit
is clear and the display rendering fits the 4096-byte buffer with its
newline, it performs exactly one Error-level sink invocation whose bytes are
the failure's display string followed by a newline byte (the error! macro
appends a newline), and returns the original failure unchanged; with the
Error bit set the failure is returned unchanged with zero invocations. -/
theorem c3_result_log (display : ε → List Nat) (logger : Logger) (r : Except ε α) :
    (∀ v, r = Except.ok v →
        resultLog display logger r = (⟨[], none⟩, Except.ok v))
    ∧ (∀ e, r = Except.error e → logger.flags &&& DisableError = 0 →
        (display e).length < 4096 →
        (resultLog display logger r).1.sinkCalls
            = [(LogLevel.ErrorL, display e ++ [10])]
        ∧ (resultLog display logger r).2 = Except.error e)
    ∧ (∀ e, r = Except.error e → logger.flags &&& DisableError ≠ 0 →
        (resultLog display logger r).1 = ⟨[], none⟩
        ∧ (resultLog display logger r).2 = Except.error e) := by
  refine ⟨?_, ?_, ?_⟩
  · intro v hv
    subst hv
    rfl
  · intro e he hbit hlen
    subst he
    have hfit : (display e ++ [10]).length ≤ 4096 := by
      rw [List.length_append]
      simp only [List.length_cons, List.length_nil]
      omega
    constructor
    · simp [resultLog, log_error, log_impl, format_args_nl, fmt_to_buf,
        LogLevel.as_disable_flag, hbit, List.take_of_length_le hfit]
    · rfl
  · intro e he hbit
    subst he
    constructor
    · simp [resultLog, log_error, log_impl, LogLevel.as_disable_flag, hbit]
    · rfl

theorem c3_result_log_witness :
    (resultLog (fun (e : List Nat) => e) ⟨noopSink, 0⟩
        (Except.error [102] : Except (List Nat) Nat)).1.sinkCalls
      = [(LogLevel.ErrorL, [102, 10])] :=
  ((c3_result_log (fun (e : List Nat) => e) ⟨noopSink, 0⟩
      (Except.error [102] : Except (List Nat) Nat)).2.1
    [102] rfl (by decide) (by decide)).1

/-- Claim C4: when the level is not suppressed, the formatted entry point
hands the sink exactly the rendered bytes when the rendering fits within the
4096-byte buffer, and a deterministically truncated 4096-byte byte-boundary
prefix when it exceeds it; the bytes written never exceed the buffer
capacity. -/
theorem c4_format_truncation (logger : Logger) (level : LogLevel) (args : List Nat)
    (h : logger.flags &&& level.as_disable_flag = 0) :
    (fmt_to_buf 4096 args).length ≤ 4096
    ∧ (args.length ≤ 4096 → (log_impl logger level args).sinkCalls = [(level, args)])
    ∧ (4096 < args.length →
        (log_impl logger level args).sinkCalls = [(level, args.take 4096)]
        ∧ (args.take 4096).length = 4096) := by
  refine ⟨?_, ?_, ?_⟩
  · simp [fmt_to_buf]
  · intro hle
    simp [log_impl, h, fmt_to_buf, List.take_of_length_le hle]
  · intro hgt
    refine ⟨by simp [log_impl, h, fmt_to_buf], ?_⟩
    simp [List.length_take, Nat.min_eq_left (le_of_lt hgt)]

theorem c4_format_truncation_witness :
    (log_impl ⟨noopSink, 0⟩ LogLevel.Info [65, 66]).sinkCalls
      = [(LogLevel.Info, [65, 66])] :=
  ((c4_format_truncation ⟨noopSink, 0⟩ LogLevel.Info [65, 66] (by decide)).2.1 (by decide))

/-- Claim C7 counterexample: starting from flags 0 and toggling Error off,
then on, then off leaves the Error suppression bit set (flags = 1), which is
not the flags obtained by never toggling (0) — refuting that the off-on-off
sequence equals no toggling for every starting state. -/
theorem c7_toggle_counterexample :
    (set_log_level_state LogLevel.ErrorL false
        (set_log_level_state LogLevel.ErrorL true
          (set_log_level_state LogLevel.ErrorL false ⟨noopSink, 0⟩))).flags = 1
    ∧ (⟨noopSink, 0⟩ : Logger).flags = 0
    ∧ (1 : Nat) ≠ 0 := by
  decide

/-- Claim C7, amended: for every level and starting state (with the flag word
in u32 range), toggling off then on then off yields the same logger as a
single off-toggle — the net effect is one disable, which coincides with never
toggling exactly when the level's suppression bit was already set (and always
for levels without a suppression bit). -/
theorem c7_toggle_identity (st : Logger) (level : LogLevel) (hf : st.flags < 2 ^ 32) :
    set_log_level_state level false
        (set_log_level_state level true (set_log_level_state level false st))
      = set_log_level_state level false st
    ∧ (st.flags &&& level.as_disable_flag = level.as_disable_flag →
        set_log_level_state level false
            (set_log_level_state level true (set_log_level_state level false st))
          = st) := by
  cases st with
  | mk w f =>
    have key : ((f ||| level.as_disable_flag)
          &&& (mask32 ^^^ level.as_disable_flag)) ||| level.as_disable_flag
        = f ||| level.as_disable_flag :=
      or_and_notc_or hf (as_disable_flag_lt level)
    have eoff : ∀ g : Nat, set_log_level_state level false (Logger.mk w g)
        = Logger.mk w (g ||| level.as_disable_flag) := by
      intro g
      simp [set_log_level_state]
    have eon : ∀ g : Nat, set_log_level_state level true (Logger.mk w g)
        = Logger.mk w (g &&& (mask32 ^^^ level.as_disable_flag)) := by
      intro g
      simp [set_log_level_state]
    constructor
    · rw [eoff, eon, eoff]
      simp only [Logger.mk.injEq, true_and]
      exact key
    · intro hset
      have hor : f ||| level.as_disable_flag = f := by
        apply Nat.eq_of_testBit_eq
        intro i
        have := congrArg (fun n => n.testBit i) hset
        simp only [Nat.testBit_and] at this
        rw [Nat.testBit_or]
        cases hb : (level.as_disable_flag).testBit i
        · simp
        · simp only [hb, Bool.and_true] at this
          simp [this]
      rw [eoff, eon, eoff]
      simp only [Logger.mk.injEq, true_and]
      rw [key, hor]

theorem c7_toggle_identity_witness :
    set_log_level_state LogLevel.ErrorL false
        (set_log_level_state LogLevel.ErrorL true
          (set_log_level_state LogLevel.ErrorL false ⟨noopSink, 8⟩))
      = set_log_level_state LogLevel.ErrorL false ⟨noopSink, 8⟩ :=
  (c7_toggle_identity ⟨noopSink, 8⟩ LogLevel.ErrorL (by norm_num)).1

/-- Claim C8: exit_on_error mutates exactly the ExitOnError bit (bit 4): the
sink is unchanged, bit 4 of the resulting flags equals the boolean argument,
and every other bit of the flag word (in particular the four suppression
bits, bits 0 to 3) is unchanged; no other effect is recorded. -/
theorem c8_exit_on_error_frame (st : Logger) (b : Bool) (hf : st.flags < 2 ^ 32) :
    (exit_on_error b st).write = st.write
    ∧ (exit_on_error b st).flags.testBit 4 = b
    ∧ ∀ i, i ≠ 4 → (exit_on_error b st).flags.testBit i = st.flags.testBit i := by
  have h16 : ExitOnError = 2 ^ 4 := by norm_num [ExitOnError]
  cases b with
  | true =>
    refine ⟨rfl, ?_, ?_⟩
    · have hb : Nat.testBit ExitOnError 4 = true := by decide
      simp [exit_on_error, Nat.testBit_or, hb]
    · intro i hi
      simp [exit_on_error, h16, Nat.testBit_or, Nat.testBit_two_pow_of_ne
        (fun h4 => hi h4.symm)]
  | false =>
    refine ⟨rfl, ?_, ?_⟩
    · have hb : Nat.testBit (mask32 ^^^ ExitOnError) 4 = false := by decide
      simp [exit_on_error, Nat.testBit_and, hb]
    · intro i hi
      simp only [exit_on_error, if_neg (Bool.false_ne_true), Nat.testBit_and,
        Nat.testBit_xor, mask32, Nat.testBit_two_pow_sub_one, h16,
        Nat.testBit_two_pow_of_ne (fun h4 => hi h4.symm)]
      by_cases hlt : i < 32
      · simp [hlt]
      · simp [hlt, testBit_of_lt32 hf (le_of_not_lt hlt)]

theorem c8_exit_on_error_frame_witness :
    (exit_on_error true ⟨noopSink, 5⟩).flags.testBit 4 = true :=
  (c8_exit_on_error_frame ⟨noopSink, 5⟩ true (by norm_num)).2.1

/-- Any sink invocation made by formatted dispatch of a newline-terminated
rendering ends in the newline byte, provided the rendering (without the
newline) is strictly shorter than the 4096-byte buffer. -/
lemma log_impl_nl (logger : Logger) (level : LogLevel) (rendered : List Nat)
    (h : rendered.length < 4096) :
    ∀ c ∈ (log_impl logger level (format_args_nl rendered)).sinkCalls,
      c.2.getLast? = some 10 := by
  intro c hc
  unfold log_impl at hc
  by_cases hs : logger.flags &&& level.as_disable_flag ≠ 0
  · rw [if_pos hs] at hc
    simp at hc
  · rw [if_neg hs] at hc
    simp only [List.mem_singleton] at hc
    subst hc
    have hfit : (format_args_nl rendered).length ≤ 4096 := by
      simp only [format_args_nl, List.length_append, List.length_cons, List.length_nil]
      omega
    show (fmt_to_buf 4096 (format_args_nl rendered)).getLast? = some 10
    simp only [fmt_to_buf]
    rw [List.take_of_length_le hfit]
    exact List.getLast?_concat rendered

/-- Claim C10 counterexample: a rendering of exactly 4096 bytes has its
appended newline truncated away — the sink receives the 4096 a-bytes and the
delivered bytes end in byte 97, not the newline byte 10 — refuting that the
bytes received from the formatted entry points always end in a newline. -/
theorem c10_newline_counterexample :
    (log_error ⟨noopSink, 0⟩ (List.replicate 4096 97)).sinkCalls
        = [(LogLevel.ErrorL, List.replicate 4096 97)]
    ∧ (List.replicate 4096 97).getLast? = some 97
    ∧ (some 97 : Option Nat) ≠ some 10 := by
  refine ⟨?_, ?_, by decide⟩
  · have hcond : ¬ ((⟨noopSink, 0⟩ : Logger).flags
        &&& (LogLevel.ErrorL).as_disable_flag ≠ 0) := by decide
    unfold log_error log_impl
    rw [if_neg hcond]
    simp only [fmt_to_buf, format_args_nl]
    have hlen : (List.replicate 4096 (97 : Nat)).length = 4096 :=
      List.length_replicate 4096 97
    rw [List.take_left' hlen]
  · have : List.replicate 4096 (97 : Nat) = List.replicate 4095 97 ++ [97] :=
      List.replicate_succ' 4095 97
    rw [this, List.getLast?_concat]

/-- Claim C10, amended: every formatted logging entry point appends a trailing
newline byte to the rendered template before dispatch, and the bytes the sink
receives end in the newline byte whenever the rendered template (before the
newline) is strictly shorter than the 4096-byte buffer, so the newline
survives truncation; in particular, the Result helper delivers the failure's
display representation followed by a newline when it fits and the Error level
is not suppressed. -/
theorem c10_trailing_newline (logger : Logger) (msg en ed disp : List Nat) :
    (msg.length < 4096 →
        ∀ c ∈ (log_error logger msg).sinkCalls, c.2.getLast? = some 10)
    ∧ (msg.length < 4096 →
        ∀ c ∈ (log_warn logger msg).sinkCalls, c.2.getLast? = some 10)
    ∧ (msg.length < 4096 →
        ∀ c ∈ (log_info logger msg).sinkCalls, c.2.getLast? = some 10)
    ∧ (msg.length < 4096 →
        ∀ c ∈ (log_debug true logger msg).result.sinkCalls, c.2.getLast? = some 10)
    ∧ ((msg ++ failedWithBytes ++ en ++ colonSpaceBytes ++ ed).length < 4096 →
        ∀ c ∈ (log_perror logger msg en ed).sinkCalls, c.2.getLast? = some 10)
    ∧ (logger.flags &&& DisableError = 0 → disp.length < 4096 →
        (resultLog (fun x => x) logger (Except.error disp : Except (List Nat) Unit)).1.sinkCalls
          = [(LogLevel.ErrorL, disp ++ [10])]) := by
  refine ⟨?_, ?_, ?_, ?_, ?_, ?_⟩
  · intro h
    exact log_impl_nl logger LogLevel.ErrorL msg h
  · intro h
    exact log_impl_nl logger LogLevel.Warn msg h
  · intro h
    exact log_impl_nl logger LogLevel.Info msg h
  · intro h
    exact log_impl_nl logger LogLevel.Debug msg h
  · intro h
    exact log_impl_nl logger LogLevel.ErrorL
      (msg ++ failedWithBytes ++ en ++ colonSpaceBytes ++ ed) h
  · intro hbit hlen
    have hfit : (disp ++ [10]).length ≤ 4096 := by
      simp only [List.length_append, List.length_cons, List.length_nil]
      omega
    simp [resultLog, log_error, log_impl, format_args_nl, fmt_to_buf,
      LogLevel.as_disable_flag, hbit, List.take_of_length_le hfit]

theorem c10_trailing_newline_witness :
    (resultLog (fun x => x) ⟨noopSink, 0⟩
        (Except.error [101] : Except (List Nat) Unit)).1.sinkCalls
      = [(LogLevel.ErrorL, [101, 10])] :=
  (c10_trailing_newline ⟨noopSink, 0⟩ [65] [] [] [101]).2.2.2.2.2
    (by decide) (by decide)

end Logging
